import Mathlib

/-!
Verification development for the synced-lyrics web application
(`src/main.py`): a Flask backend that polls a playback source, fetches and
parses LRC-tagged lyrics, enriches them with pinyin and translations, and an
embedded browser script that extrapolates the playback position and resolves
the active lyric line.

The Python backend and the embedded JavaScript front-end are shallowly
embedded here:
* floating-point times and millisecond clocks are modelled as rationals
  (all values occurring are exactly representable and the operations used
  — addition, subtraction, division by constants, comparisons — are
  order-faithful on them);
* external collaborators (Spotify playback, the lrclib HTTP API, the Argos
  translator, OpenCC conversion, pypinyin) are parameters: functions passed
  to the embedded definitions, with `Except` modelling Python exceptions
  raised by `requests`;
* Python regex / string routines (`re`, `str.splitlines`, `str.strip`) are
  embedded as character-list scanners implementing the same semantics for
  the character classes involved (ASCII digits and the common whitespace
  characters; the rare Unicode extensions of `\s` / `\d` are outside the
  model).
Recursive scanners take an explicit fuel argument; callers supply fuel
strictly larger than the input length, which each step consumes, so the
zero-fuel branch is unreachable on those calls.
-/

namespace LyricsApp

/-- One parsed lyric line: `LrcLine` dataclass of `src/main.py` (t, text,
pinyin, trans; the latter two default to ""). Times are modelled as `ℚ`. -/
structure LrcLine where
  t : ℚ
  text : String
  pinyin : String
  trans : String
deriving DecidableEq, Repr

/-- Default `LrcLine` used when indexing with `List.getD`. -/
def defLine : LrcLine := ⟨0, "", "", ""⟩

/-- Ordering of lyric lines by their timestamp. -/
def leT (a b : LrcLine) : Prop := a.t ≤ b.t

instance : DecidableRel leT := fun a b => inferInstanceAs (Decidable (a.t ≤ b.t))

instance : IsTotal LrcLine leT := ⟨fun a b => le_total a.t b.t⟩

instance : IsTrans LrcLine leT := ⟨fun _ _ _ h1 h2 => le_trans h1 h2⟩

/-! ## Playback clock model (embedded JavaScript, `fetchState` lines 484–489
and `highlightLoop` lines 441–443 of `src/main.py`) -/

/-- The front-end clock globals `baseProgress`, `startedAt`, `lastProgress`
(all initialised to 0). -/
structure ClockState where
  baseProgress : ℚ
  startedAt : ℚ
  lastProgress : ℚ
deriving DecidableEq, Repr

/-- A discrete playback sample: the reported progress (ms), the wall-clock
instant the front-end observed it (`Date.now()` at the fetch), and the
reported playing flag (present in the JSON but unused by the clock code). -/
structure PlaybackSample where
  reportedProgressMs : ℚ
  observedAtWallClock : ℚ
  isPlaying : Bool
deriving DecidableEq, Repr

/-- Clock update of `fetchState` (src/main.py lines 484–489): when
`progress_ms` is a number and is `>=` the last progress, re-anchor
`baseProgress` / `startedAt`; in every case record `lastProgress`.
`none` models a JSON value that is not a number (the `typeof` guard). -/
def fetchStateClock (st : ClockState) (s : Option PlaybackSample) : ClockState :=
  match s with
  | none => st
  | some s =>
    if st.lastProgress ≤ s.reportedProgressMs then
      ⟨s.reportedProgressMs, s.observedAtWallClock, s.reportedProgressMs⟩
    else
      ⟨st.baseProgress, st.startedAt, s.reportedProgressMs⟩

/-- Position estimate of `highlightLoop` (src/main.py lines 441–443):
`posSec = (baseProgress + max(0, now - startedAt)) / 1000`. -/
def currentPositionSeconds (st : ClockState) (now : ℚ) : ℚ :=
  (st.baseProgress + max 0 (now - st.startedAt)) / 1000

/-! ## Active-line resolver (embedded JavaScript, `highlightLoop`
lines 445–462 of `src/main.py`) -/

/-- Timestamp of the line at index `i` (the JavaScript `lrc[i].t`). -/
def tAt (ts : List LrcLine) (i : Nat) : ℚ := (ts.getD i defLine).t

/-- The binary-search loop of `highlightLoop`: `lo`/`hi` are represented as
`lo` and `hi1 = hi + 1` (both natural numbers), so the JS condition
`lo <= hi` is `lo < hi1` and `mid = (lo + hi) >> 1` is `(lo + hi1 - 1) / 2`;
`cand` is `none` for the JS initial value `-1`.  The fuel bounds the number
of iterations; each iteration shrinks `hi1 - lo`, so fuel
`ts.length + 1` is always sufficient. -/
def bsGo (ts : List LrcLine) (pos : ℚ) : Nat → Nat → Nat → Option Nat → Option Nat
  | 0, _, _, cand => cand
  | fuel + 1, lo, hi1, cand =>
    if lo < hi1 then
      let mid := (lo + hi1 - 1) / 2
      if tAt ts mid ≤ pos then bsGo ts pos fuel (mid + 1) hi1 (some mid)
      else bsGo ts pos fuel lo mid cand
    else cand

/-- The candidate index computed by `highlightLoop`: the binary search over
`[0, lrc.length - 1]` followed by the clamp `if (cand < 0) cand = 0`. -/
def candIdx (ts : List LrcLine) (pos : ℚ) : Nat :=
  match bsGo ts pos (ts.length + 1) 0 ts.length none with
  | some i => i
  | none => 0

/-- One step of the hysteresis logic of `highlightLoop`
(src/main.py lines 453–462), updating the retained `currentIdx` (an integer,
`-1` when no line has been adopted yet).  `0.4` and `1e9` are the source
literals. -/
def resolverStep (ts : List LrcLine) (pos : ℚ) (currentIdx : Int) : Int :=
  let cand : Int := (candIdx ts pos : Int)
  if currentIdx = -1 then cand
  else if currentIdx < cand then
    let curT := tAt ts currentIdx.toNat
    let nextT : ℚ :=
      if currentIdx + 1 < (ts.length : Int) then tAt ts (currentIdx + 1).toNat
      else 1000000000
    if curT + (4 / 10 : ℚ) * (nextT - curT) ≤ pos then cand else currentIdx
  else if cand < currentIdx then cand
  else currentIdx

/-- Monotonicity of `tAt` on a sorted line list. -/
lemma tAt_mono {ts : List LrcLine} (hs : List.Pairwise leT ts) {i j : Nat}
    (hij : i ≤ j) (hj : j < ts.length) : tAt ts i ≤ tAt ts j := by
  rcases Nat.lt_or_ge i j with hlt | hge
  · have hi : i < ts.length := lt_trans hlt hj
    have h := (List.pairwise_iff_getElem.mp hs) i j hi hj hlt
    rw [tAt, tAt, List.getD_eq_getElem _ _ hi, List.getD_eq_getElem _ _ hj]
    exact h
  · have : i = j := le_antisymm hij hge
    simp [this]

/-- Correctness of the binary-search loop: given the loop invariants (enough
fuel, bounds, everything at or beyond `hi1` strictly after `pos`, and the
relation between `cand` and `lo`), the loop returns the greatest index whose
time is `≤ pos`, or `none` when there is none. -/
lemma bsGo_correct {ts : List LrcLine} {pos : ℚ} (hs : List.Pairwise leT ts) :
    ∀ (fuel lo hi1 : Nat) (cand : Option Nat),
      hi1 - lo ≤ fuel →
      hi1 ≤ ts.length →
      (∀ i, hi1 ≤ i → i < ts.length → pos < tAt ts i) →
      (cand = none ∧ lo = 0 ∨
        ∃ m, cand = some m ∧ m + 1 = lo ∧ tAt ts m ≤ pos ∧ m < ts.length) →
      (bsGo ts pos fuel lo hi1 cand = none ∧ ∀ i, i < ts.length → pos < tAt ts i) ∨
      (∃ m, bsGo ts pos fuel lo hi1 cand = some m ∧ m < ts.length ∧ tAt ts m ≤ pos ∧
        ∀ i, m < i → i < ts.length → pos < tAt ts i) := by
  intro fuel
  induction fuel with
  | zero =>
    intro lo hi1 cand hfuel hlen hhi hcand
    rcases hcand with ⟨hc, hlo⟩ | ⟨m, hc, hm1, hmle, hmlt⟩
    · subst hc; subst hlo
      left
      exact ⟨rfl, fun i hi => hhi i (by omega) hi⟩
    · subst hc
      right
      exact ⟨m, rfl, hmlt, hmle, fun i hmi hi => hhi i (by omega) hi⟩
  | succ fuel ih =>
    intro lo hi1 cand hfuel hlen hhi hcand
    by_cases hlh : lo < hi1
    · have hmidlo : lo ≤ (lo + hi1 - 1) / 2 := by omega
      have hmidhi : (lo + hi1 - 1) / 2 < hi1 := by omega
      by_cases hle : tAt ts ((lo + hi1 - 1) / 2) ≤ pos
      · have := ih ((lo + hi1 - 1) / 2 + 1) hi1 (some ((lo + hi1 - 1) / 2))
          (by omega) hlen hhi
          (Or.inr ⟨(lo + hi1 - 1) / 2, rfl, rfl, hle, by omega⟩)
        simpa [bsGo, hlh, hle] using this
      · have hhi' : ∀ i, (lo + hi1 - 1) / 2 ≤ i → i < ts.length → pos < tAt ts i := by
          intro i hmi hi
          by_cases hih : hi1 ≤ i
          · exact hhi i hih hi
          · have hmono : tAt ts ((lo + hi1 - 1) / 2) ≤ tAt ts i := tAt_mono hs hmi hi
            have : pos < tAt ts ((lo + hi1 - 1) / 2) := lt_of_not_le hle
            linarith
        have := ih lo ((lo + hi1 - 1) / 2) cand (by omega) (by omega) hhi' hcand
        simpa [bsGo, hlh, hle] using this
    · rcases hcand with ⟨hc, hlo⟩ | ⟨m, hc, hm1, hmle, hmlt⟩
      · subst hc; subst hlo
        left
        exact ⟨by simp [bsGo, hlh], fun i hi => hhi i (by omega) hi⟩
      · subst hc
        right
        exact ⟨m, by simp [bsGo, hlh], hmlt, hmle, fun i hmi hi => hhi i (by omega) hi⟩

/-- Characterisation of the clamped candidate index of `highlightLoop` on a
sorted list: either no line has started (`pos` before every time) and the
clamp yields `0`, or the candidate is the greatest index whose time is
`≤ pos`. -/
lemma candIdx_spec {ts : List LrcLine} {pos : ℚ} (hs : List.Pairwise leT ts) :
    (candIdx ts pos = 0 ∧ ∀ i, i < ts.length → pos < tAt ts i) ∨
    (candIdx ts pos < ts.length ∧ tAt ts (candIdx ts pos) ≤ pos ∧
      ∀ i, candIdx ts pos < i → i < ts.length → pos < tAt ts i) := by
  have h := @bsGo_correct ts pos hs (ts.length + 1) 0 ts.length none (by omega) le_rfl
    (fun i h1 h2 => absurd h1 (Nat.not_le.mpr h2)) (Or.inl ⟨rfl, rfl⟩)
  rcases h with ⟨hnone, hall⟩ | ⟨m, hsome, hmlt, hmle, hgt⟩
  · left
    exact ⟨by simp [candIdx, hnone], hall⟩
  · right
    have : candIdx ts pos = m := by simp [candIdx, hsome]
    rw [this]
    exact ⟨hmlt, hmle, hgt⟩

/-- The three-line example of the spec (times 0, 10, 20). -/
def demoLines : List LrcLine := [⟨0, "a", "", ""⟩, ⟨10, "b", "", ""⟩, ⟨20, "c", "", ""⟩]

/-- C1 counterexample: a retained sample with `isPlaying = false`
(reported progress 1000 ms, observed at wall clock 10000) queried 500 ms
later yields 1.5 s — the code extrapolates even when paused, not the
claimed unchanged 1.0 s. -/
theorem C1_cex_paused_extrapolates :
    currentPositionSeconds (fetchStateClock ⟨0, 0, 0⟩ (some ⟨1000, 10000, false⟩)) 10500
      = 3 / 2 ∧ (3 / 2 : ℚ) ≠ 1000 / 1000 := by
  constructor
  · norm_num [currentPositionSeconds, fetchStateClock]
  · norm_num

/-- C1 (amended): the front-end clock extrapolates regardless of the
sample's `isPlaying` flag: for every retained (anchor-resetting) sample and
every query instant at or after the observation instant, the position is
`reportedProgressMs/1000 + (now - observedAtWallClock)/1000`; in particular
the sample (1000 ms, T, playing) queried at T+500 ms yields 1.5 s. -/
theorem C1_position_extrapolation (st : ClockState) (s : PlaybackSample) (now : ℚ)
    (hacc : st.lastProgress ≤ s.reportedProgressMs)
    (hnow : s.observedAtWallClock ≤ now) :
    currentPositionSeconds (fetchStateClock st (some s)) now
      = s.reportedProgressMs / 1000 + (now - s.observedAtWallClock) / 1000 := by
  simp only [fetchStateClock, if_pos hacc, currentPositionSeconds]
  rw [max_eq_right (by linarith)]
  ring

/-- Witness for C1's amended theorem at the spec's concrete sample. -/
theorem C1_position_extrapolation_witness :
    (ClockState.mk 0 0 0).lastProgress ≤ (1000 : ℚ) ∧ (10000 : ℚ) ≤ 10500 ∧
    currentPositionSeconds (fetchStateClock ⟨0, 0, 0⟩ (some ⟨1000, 10000, true⟩)) 10500
      = 1000 / 1000 + (10500 - 10000) / 1000 :=
  ⟨by norm_num, by norm_num,
    C1_position_extrapolation ⟨0, 0, 0⟩ ⟨1000, 10000, true⟩ 10500 (by norm_num) (by norm_num)⟩

/-- C7 counterexample: with last accepted progress 5000 ms, a same-session
sample reporting 1000 ms (a regression) does not reset the extrapolation
anchor — `baseProgress`/`startedAt` keep their old values (5000, 100) and
only `lastProgress` is lowered, contradicting the claimed unconditional
acceptance. -/
theorem C7_cex_regression_rejected :
    fetchStateClock ⟨5000, 100, 5000⟩ (some ⟨1000, 200, true⟩) = ⟨5000, 100, 1000⟩ ∧
    fetchStateClock ⟨5000, 100, 5000⟩ (some ⟨1000, 200, true⟩) ≠ ⟨1000, 200, 1000⟩ := by
  constructor
  · norm_num [fetchStateClock]
  · norm_num [fetchStateClock]

/-- C7 (amended): a sample whose reported progress is `>=` the last reported
progress resets the anchor; a regressing sample does not (the anchor is kept
and only `lastProgress` is updated, track identity never being consulted),
so the regression takes effect one accepted sample later: any following
sample with progress `>=` the regressed value re-anchors. -/
theorem C7_sample_acceptance :
    (∀ (st : ClockState) (s : PlaybackSample), st.lastProgress ≤ s.reportedProgressMs →
      fetchStateClock st (some s)
        = ⟨s.reportedProgressMs, s.observedAtWallClock, s.reportedProgressMs⟩) ∧
    (∀ (st : ClockState) (s : PlaybackSample), s.reportedProgressMs < st.lastProgress →
      fetchStateClock st (some s) = ⟨st.baseProgress, st.startedAt, s.reportedProgressMs⟩) ∧
    (∀ (st : ClockState) (s1 s2 : PlaybackSample),
      s1.reportedProgressMs < st.lastProgress →
      s1.reportedProgressMs ≤ s2.reportedProgressMs →
      fetchStateClock (fetchStateClock st (some s1)) (some s2)
        = ⟨s2.reportedProgressMs, s2.observedAtWallClock, s2.reportedProgressMs⟩) := by
  refine ⟨fun st s h => ?_, fun st s h => ?_, fun st s1 s2 h1 h2 => ?_⟩
  · simp [fetchStateClock, h]
  · simp [fetchStateClock, not_le.mpr h]
  · simp [fetchStateClock, not_le.mpr h1, h2]

/-- Witness for C7's amended theorem at concrete samples. -/
theorem C7_sample_acceptance_witness :
    ((0 : ℚ) ≤ 700 ∧ fetchStateClock ⟨0, 0, 0⟩ (some ⟨700, 1, true⟩) = ⟨700, 1, 700⟩) ∧
    ((1000 : ℚ) < 5000 ∧
      fetchStateClock ⟨5000, 100, 5000⟩ (some ⟨1000, 200, true⟩) = ⟨5000, 100, 1000⟩) ∧
    ((1000 : ℚ) < 5000 ∧ (1000 : ℚ) ≤ 1200 ∧
      fetchStateClock (fetchStateClock ⟨5000, 100, 5000⟩ (some ⟨1000, 200, true⟩))
        (some ⟨1200, 300, true⟩) = ⟨1200, 300, 1200⟩) :=
  ⟨⟨by norm_num, C7_sample_acceptance.1 ⟨0, 0, 0⟩ ⟨700, 1, true⟩ (by norm_num)⟩,
   ⟨by norm_num, C7_sample_acceptance.2.1 ⟨5000, 100, 5000⟩ ⟨1000, 200, true⟩ (by norm_num)⟩,
   ⟨by norm_num, by norm_num,
     C7_sample_acceptance.2.2 ⟨5000, 100, 5000⟩ ⟨1000, 200, true⟩ ⟨1200, 300, true⟩
       (by norm_num) (by norm_num)⟩⟩

/-- C10: on a sorted non-empty line list, if the position lies strictly
before the first line's time (so the binary search finds no index with
time `≤` position), the clamp yields candidate index 0 and a first call
(retained index `-1`) adopts the first line as active. -/
theorem C10_clamp_before_first (ts : List LrcLine) (pos : ℚ)
    (_hne : ts ≠ []) (hs : List.Pairwise leT ts) (hpos : pos < tAt ts 0) :
    candIdx ts pos = 0 ∧ resolverStep ts pos (-1) = 0 := by
  have hc0 : candIdx ts pos = 0 := by
    rcases candIdx_spec hs with ⟨h0, _⟩ | ⟨hlt, hle, _⟩
    · exact h0
    · have hmono : tAt ts 0 ≤ tAt ts (candIdx ts pos) := tAt_mono hs (Nat.zero_le _) hlt
      linarith
  refine ⟨hc0, ?_⟩
  simp [resolverStep, hc0]

/-- Witness for C10 at a concrete list and position. -/
theorem C10_clamp_before_first_witness :
    demoLines ≠ [] ∧ List.Pairwise leT demoLines ∧ (-1 : ℚ) < tAt demoLines 0 ∧
    (candIdx demoLines (-1) = 0 ∧ resolverStep demoLines (-1) (-1) = 0) :=
  ⟨by simp [demoLines], by norm_num [demoLines, leT],
    by norm_num [tAt, demoLines, defLine],
    C10_clamp_before_first demoLines (-1) (by simp [demoLines]) (by norm_num [demoLines, leT])
      (by norm_num [tAt, demoLines, defLine])⟩

/-- C2 counterexample: with lines at times 0, 10, 20 and retained index 0,
at position 4.1 the freshly computed candidate is still 0 (line 1 starts
only at 10), so the resolver keeps index 0 — it does not switch to index 1
as the claim's concrete example asserts. -/
theorem C2_cex_position_4_1 :
    resolverStep demoLines (41 / 10) 0 = 0 ∧ (0 : Int) ≠ 1 := by
  constructor
  · norm_num [resolverStep, candIdx, bsGo, tAt, demoLines, defLine]
  · decide

/-- C2 (amended): the hysteresis rule is as claimed — when the candidate
index (the greatest index whose time is `≤` position, which the first
conjunct characterises) exceeds the retained index `r`, the switch happens
exactly when position is at or past
`lines[r].t + 0.4 * (lines[r+1].t - lines[r].t)`; a smaller candidate is
adopted immediately; an equal one changes nothing.  But on a sorted list a
candidate `> r` already has time `≥ lines[r+1].t ≥` that threshold, so in
the spec's example position 3.9 and position 4.1 both keep index 0 (the
candidate is still 0 at 4.1) and the switch to index 1 happens at
position 10. -/
theorem C2_hysteresis :
    (∀ (ts : List LrcLine) (pos : ℚ), List.Pairwise leT ts →
      ∀ j, j < ts.length → tAt ts j ≤ pos →
        candIdx ts pos < ts.length ∧ tAt ts (candIdx ts pos) ≤ pos ∧ j ≤ candIdx ts pos) ∧
    (∀ (ts : List LrcLine) (pos : ℚ) (r : Nat), List.Pairwise leT ts →
      (r : Int) < (candIdx ts pos : Int) →
      resolverStep ts pos r =
        if tAt ts r + (4 / 10 : ℚ) * (tAt ts (r + 1) - tAt ts r) ≤ pos
        then (candIdx ts pos : Int) else (r : Int)) ∧
    (∀ (ts : List LrcLine) (pos : ℚ) (r : Nat),
      (candIdx ts pos : Int) < (r : Int) → resolverStep ts pos r = candIdx ts pos) ∧
    (∀ (ts : List LrcLine) (pos : ℚ) (r : Nat),
      (candIdx ts pos : Int) = (r : Int) → resolverStep ts pos r = r) ∧
    resolverStep demoLines (39 / 10) 0 = 0 ∧
    resolverStep demoLines (41 / 10) 0 = 0 ∧
    resolverStep demoLines 10 0 = 1 := by
  refine ⟨?_, ?_, ?_, ?_,
    by norm_num [resolverStep, candIdx, bsGo, tAt, demoLines, defLine],
    by norm_num [resolverStep, candIdx, bsGo, tAt, demoLines, defLine],
    by norm_num [resolverStep, candIdx, bsGo, tAt, demoLines, defLine]⟩
  · intro ts pos hs j hj hjle
    rcases candIdx_spec hs with ⟨_, hall⟩ | ⟨hlt, hle, hgt⟩
    · exact absurd hjle (not_le.mpr (hall j hj))
    · refine ⟨hlt, hle, ?_⟩
      by_contra hcj
      exact absurd hjle (not_le.mpr (hgt j (by omega) hj))
  · intro ts pos r hs hr
    have hrc : r < candIdx ts pos := by exact_mod_cast hr
    have hclen : candIdx ts pos < ts.length := by
      rcases @candIdx_spec ts pos hs with ⟨h0, _⟩ | ⟨hlt, _, _⟩
      · omega
      · exact hlt
    have hr1 : (r : Int) + 1 < (ts.length : Int) := by
      have : r + 1 < ts.length := by omega
      exact_mod_cast this
    simp only [resolverStep]
    rw [if_neg (by omega), if_pos hr, if_pos hr1]
    have e1 : ((r : Int)).toNat = r := Int.toNat_natCast r
    have e2 : ((r : Int) + 1).toNat = r + 1 := by omega
    rw [e1, e2]
  · intro ts pos r hr
    have h1 : ¬ ((r : Int) = -1) := by omega
    simp only [resolverStep]
    rw [if_neg h1, if_neg (by omega), if_pos hr]
  · intro ts pos r hr
    have h1 : ¬ ((r : Int) = -1) := by omega
    simp only [resolverStep]
    rw [if_neg h1, if_neg (by omega), if_neg (by omega)]

/-- Witness for C2's amended theorem at the spec's example list. -/
theorem C2_hysteresis_witness :
    (List.Pairwise leT demoLines ∧ (1 : Nat) < demoLines.length ∧ tAt demoLines 1 ≤ 10 ∧
      (candIdx demoLines 10 < demoLines.length ∧ tAt demoLines (candIdx demoLines 10) ≤ 10 ∧
        1 ≤ candIdx demoLines 10)) ∧
    (List.Pairwise leT demoLines ∧ (0 : Int) < (candIdx demoLines 10 : Int) ∧
      resolverStep demoLines 10 0 =
        if tAt demoLines 0 + (4 / 10 : ℚ) * (tAt demoLines 1 - tAt demoLines 0) ≤ 10
        then (candIdx demoLines 10 : Int) else (0 : Int)) ∧
    ((candIdx demoLines (39 / 10) : Int) < (2 : Int) ∧
      resolverStep demoLines (39 / 10) 2 = candIdx demoLines (39 / 10)) ∧
    ((candIdx demoLines (39 / 10) : Int) = (0 : Int) ∧
      resolverStep demoLines (39 / 10) 0 = 0) :=
  ⟨⟨by norm_num [demoLines, leT], by norm_num [demoLines],
      by norm_num [tAt, demoLines, defLine],
      C2_hysteresis.1 demoLines 10 (by norm_num [demoLines, leT]) 1
        (by norm_num [demoLines]) (by norm_num [tAt, demoLines, defLine])⟩,
   ⟨by norm_num [demoLines, leT],
      by norm_num [candIdx, bsGo, tAt, demoLines, defLine],
      C2_hysteresis.2.1 demoLines 10 0 (by norm_num [demoLines, leT])
        (by norm_num [candIdx, bsGo, tAt, demoLines, defLine])⟩,
   ⟨by norm_num [candIdx, bsGo, tAt, demoLines, defLine],
      C2_hysteresis.2.2.1 demoLines (39 / 10) 2
        (by norm_num [candIdx, bsGo, tAt, demoLines, defLine])⟩,
   ⟨by norm_num [candIdx, bsGo, tAt, demoLines, defLine],
      C2_hysteresis.2.2.2.1 demoLines (39 / 10) 0
        (by norm_num [candIdx, bsGo, tAt, demoLines, defLine])⟩⟩

/-! ## Timestamp-line parser (`parse_lrc`, src/main.py lines 160–176, with
the regex `LRC_TIME = \[(\d{1,2}):(\d{2})(?:\.(\d{1,2}))?\]` of line 83).
Python string/regex semantics are embedded as character-list scanners:
`str.splitlines`, `str.strip`, `finditer`/`sub` with the tag regex. -/

/-- Whitespace for Python's `str.strip` / regex `\s` (the space characters
recognised by `str.isspace`). -/
def pySpaceCh (c : Char) : Bool :=
  c = ' ' ∨ c = '\t' ∨ c = '\n' ∨ c = '\r' ∨ c = '\x0b' ∨ c = '\x0c' ∨
  c = '\x1c' ∨ c = '\x1d' ∨ c = '\x1e' ∨ c = '\x1f' ∨ c = '\x85' ∨ c = '\xa0' ∨
  c = ' ' ∨ (' ' ≤ c ∧ c ≤ ' ') ∨ c = ' ' ∨ c = ' ' ∨
  c = ' ' ∨ c = ' ' ∨ c = '　'

/-- Line boundaries recognised by Python's `str.splitlines`. -/
def lineBreakCh (c : Char) : Bool :=
  c = '\n' ∨ c = '\r' ∨ c = '\x0b' ∨ c = '\x0c' ∨ c = '\x1c' ∨ c = '\x1d' ∨
  c = '\x1e' ∨ c = '\x85' ∨ c = ' ' ∨ c = ' '

/-- Python `str.splitlines`: split at line boundaries (with `\r\n` counting
as a single boundary), no trailing empty line.  Fuel-driven; each step
consumes at least one character, so fuel `length + 1` suffices. -/
def pySplitlinesGo : Nat → List Char → List String
  | 0, _ => []
  | _, [] => []
  | fuel + 1, cs =>
    let p := cs.span fun c => ¬ lineBreakCh c
    match p.2 with
    | [] => [String.mk p.1]
    | '\r' :: '\n' :: rest2 => String.mk p.1 :: pySplitlinesGo fuel rest2
    | _ :: rest2 => String.mk p.1 :: pySplitlinesGo fuel rest2

/-- Python `str.splitlines` on a string. -/
def pySplitlines (s : String) : List String :=
  pySplitlinesGo (s.data.length + 1) s.data

/-- Python `str.strip`: remove leading and trailing whitespace. -/
def pyStrip (s : String) : String :=
  String.mk (((s.data.dropWhile pySpaceCh).reverse.dropWhile pySpaceCh).reverse)

/-- One parsed timestamp tag: the `minutes`/`seconds` groups and the value
and digit count of the optional fraction group (count 0 = group absent). -/
structure LrcTag where
  mm : Nat
  ss : Nat
  fracVal : Nat
  fracLen : Nat
deriving DecidableEq, Repr

/-- Numeric value of an ASCII digit. -/
def dv (c : Char) : Nat := c.toNat - 48

/-- Matcher for the regex part `(?:\.(\d{1,2}))?\]` (greedy optional
fraction group with backtracking against the closing bracket): returns the
fraction value, its digit count and the number of characters consumed. -/
def fracPart (cs : List Char) : Option (Nat × Nat × Nat) :=
  match cs with
  | ']' :: _ => some (0, 0, 1)
  | '.' :: e :: rest2 =>
    if e.isDigit then
      match rest2 with
      | f :: ']' :: _ =>
        if f.isDigit then some (10 * dv e + dv f, 2, 4)
        else if f = ']' then some (dv e, 1, 3)
        else none
      | ']' :: _ => some (dv e, 1, 3)
      | _ => none
    else none
  | _ => none

/-- Matcher for `(\d{2})` followed by the fraction part: seconds are exactly
two digits. -/
def ssPart (cs : List Char) : Option (Nat × Nat × Nat × Nat) :=
  match cs with
  | c1 :: c2 :: rest =>
    if c1.isDigit ∧ c2.isDigit then
      match fracPart rest with
      | some (v, l, k) => some (10 * dv c1 + dv c2, v, l, k + 2)
      | none => none
    else none
  | _ => none

/-- Attempt to match the whole tag regex at the head of the input.  The
greedy `\d{1,2}` for minutes takes two digits when the third character is
the colon, otherwise backtracks to one digit (which requires the colon
immediately after — a second digit not followed by a colon kills the
match, as in the regex).  Returns the tag and the number of characters
consumed. -/
def matchTag (cs : List Char) : Option (LrcTag × Nat) :=
  match cs with
  | '[' :: a :: rest =>
    if a.isDigit then
      match rest with
      | b :: ':' :: rest2 =>
        if b.isDigit then
          match ssPart rest2 with
          | some (ss, v, l, k) => some (⟨10 * dv a + dv b, ss, v, l⟩, k + 4)
          | none => none
        else none
      | ':' :: rest2 =>
        match ssPart rest2 with
        | some (ss, v, l, k) => some (⟨dv a, ss, v, l⟩, k + 3)
        | none => none
      | _ => none
    else none
  | _ => none

/-- Left-to-right non-overlapping scan of all tag matches
(`LRC_TIME.finditer`), simultaneously collecting the unmatched characters
(`LRC_TIME.sub("", raw)`).  Fuel-driven; every step consumes at least one
character, so fuel `length + 1` suffices. -/
def scanTags : Nat → List Char → List LrcTag × List Char
  | 0, cs => ([], cs)
  | _, [] => ([], [])
  | fuel + 1, c :: cs =>
    match matchTag (c :: cs) with
    | some (tg, k) =>
      let r := scanTags fuel ((c :: cs).drop k)
      (tg :: r.1, r.2)
    | none =>
      let r := scanTags fuel cs
      (r.1, c :: r.2)

/-- Seconds value of a tag: `t = mm*60 + ss + cs/denom`, with denominator
10 for a one-digit fraction and 100 otherwise (fraction absent = 0). -/
def tagTime (tg : LrcTag) : ℚ :=
  let denom : ℚ := if tg.fracLen = 1 then 10 else 100
  tg.mm * 60 + tg.ss + tg.fracVal / denom

/-- Per-physical-line emission of `parse_lrc`'s loop body: all tags of the
line, each paired (when the tag-stripped trimmed text is non-empty) with
that text. -/
def emitLine (raw : String) : List LrcLine :=
  let scanned := scanTags (raw.data.length + 1) raw.data
  let lyric := pyStrip (String.mk scanned.2)
  scanned.1.filterMap fun tg =>
    if lyric = "" then none else some ⟨tagTime tg, lyric, "", ""⟩

/-- `parse_lrc` (src/main.py lines 160–176): empty input yields `[]`;
otherwise collect the per-line emissions and stable-sort ascending by time
(Python's `list.sort(key=...)`). -/
def parse_lrc (text : String) : List LrcLine :=
  if text = "" then []
  else List.insertionSort leT ((pySplitlines text).flatMap emitLine)

/-- Reference parser modelled on the spec's words (§4.1): for each physical
line extract all timestamp tags; the remaining text (tags stripped,
trimmed) is the line's text; a line is emitted once per tag iff it has at
least one tag and non-empty stripped text; the collected lines are
stable-sorted non-decreasingly by time; empty/absent input yields the
empty sequence. -/
def refLineEmit (raw : String) : List LrcLine :=
  let scanned := scanTags (raw.data.length + 1) raw.data
  let txt := pyStrip (String.mk scanned.2)
  if txt = "" then []
  else scanned.1.map fun tg => ⟨tagTime tg, txt, "", ""⟩

/-- Reference parser (see `refLineEmit`). -/
def refParse (text : String) : List LrcLine :=
  List.insertionSort leT ((pySplitlines text).flatMap refLineEmit)

/-- The number of valid tags on physical lines whose stripped text is
non-empty (the `N` of the claim). -/
def qualTagCount (text : String) : Nat :=
  ((pySplitlines text).map fun raw =>
    let scanned := scanTags (raw.data.length + 1) raw.data
    if pyStrip (String.mk scanned.2) = "" then 0 else scanned.1.length).sum

/-- The per-line emission of the source parser coincides with the
reference emission. -/
lemma emitLine_eq_refLineEmit (raw : String) : emitLine raw = refLineEmit raw := by
  unfold emitLine refLineEmit
  generalize scanTags (raw.data.length + 1) raw.data = s
  obtain ⟨tags, txt⟩ := s
  by_cases h : pyStrip (String.mk txt) = ""
  · simp [h]
  · simp only [if_neg h]
    induction tags with
    | nil => simp
    | cons a l ih =>
      simp only [List.filterMap_cons, List.map_cons, if_neg h] at ih ⊢
      rw [ih]

/-- Length of a per-line emission: the line's tag count when the stripped
text is non-empty, 0 otherwise. -/
lemma emitLine_length (raw : String) :
    (emitLine raw).length =
      (if pyStrip (String.mk (scanTags (raw.data.length + 1) raw.data).2) = ""
       then 0 else (scanTags (raw.data.length + 1) raw.data).1.length) := by
  unfold emitLine
  generalize scanTags (raw.data.length + 1) raw.data = s
  obtain ⟨tags, txt⟩ := s
  by_cases h : pyStrip (String.mk txt) = ""
  · simp [h]
  · simp only [if_neg h]
    induction tags with
    | nil => simp
    | cons a l ih =>
      simp only [List.filterMap_cons, List.length_cons, if_neg h] at ih ⊢
      rw [ih]

/-- C4: the Timestamp-Line Parser equals the reference definition built
from the spec's words (`refParse`): the outputs are equal for every input,
in particular the output is sorted non-decreasingly by time, contains
exactly one line per valid tag on physical lines with non-empty stripped
text (`qualTagCount`), empty input yields the empty sequence, and the
spec's two-line example parses to the two expected lines. -/
theorem C4_parser_reference :
    (∀ text : String, parse_lrc text = refParse text) ∧
    (∀ text : String, List.Pairwise leT (parse_lrc text)) ∧
    (∀ text : String, (parse_lrc text).length = qualTagCount text) ∧
    parse_lrc "" = [] ∧
    parse_lrc "[00:01.50]Hi\n[00:00.0]Lo" = [⟨0, "Lo", "", ""⟩, ⟨3 / 2, "Hi", "", ""⟩] := by
  have hfun : emitLine = refLineEmit := funext emitLine_eq_refLineEmit
  refine ⟨?_, ?_, ?_, ?_, ?_⟩
  · intro text
    by_cases h : text = ""
    · subst h
      simp [parse_lrc, refParse, pySplitlines, pySplitlinesGo]
    · simp [parse_lrc, refParse, h, hfun]
  · intro text
    by_cases h : text = ""
    · simp [parse_lrc, h]
    · simp only [parse_lrc, if_neg h]
      exact List.sorted_insertionSort leT _
  · intro text
    by_cases h : text = ""
    · subst h
      simp [parse_lrc, qualTagCount, pySplitlines, pySplitlinesGo]
    · simp only [parse_lrc, if_neg h, List.length_insertionSort, List.length_flatMap,
        qualTagCount]
      congr 1
      apply List.map_congr_left
      intro raw _
      simpa using emitLine_length raw
  · simp [parse_lrc]
  · have hsplit : pySplitlines "[00:01.50]Hi\n[00:00.0]Lo" = ["[00:01.50]Hi", "[00:00.0]Lo"] := by
      decide
    have hscan1 : scanTags 13 ['[', '0', '0', ':', '0', '1', '.', '5', '0', ']', 'H', 'i']
        = ([⟨0, 1, 50, 2⟩], ['H', 'i']) := by decide
    have hscan2 : scanTags 12 ['[', '0', '0', ':', '0', '0', '.', '0', ']', 'L', 'o']
        = ([⟨0, 0, 0, 1⟩], ['L', 'o']) := by decide
    have hstrip1 : pyStrip (String.mk ['H', 'i']) = "Hi" := by decide
    have hstrip2 : pyStrip (String.mk ['L', 'o']) = "Lo" := by decide
    have he1 : emitLine "[00:01.50]Hi" = [⟨tagTime ⟨0, 1, 50, 2⟩, "Hi", "", ""⟩] := by
      simp [emitLine, hscan1, hstrip1]
    have he2 : emitLine "[00:00.0]Lo" = [⟨tagTime ⟨0, 0, 0, 1⟩, "Lo", "", ""⟩] := by
      simp [emitLine, hscan2, hstrip2]
    have ht1 : tagTime ⟨0, 1, 50, 2⟩ = 3 / 2 := by norm_num [tagTime]
    have ht2 : tagTime ⟨0, 0, 0, 1⟩ = 0 := by norm_num [tagTime]
    rw [ht1] at he1
    rw [ht2] at he2
    unfold parse_lrc
    rw [if_neg (by decide), hsplit]
    simp only [List.flatMap_cons, List.flatMap_nil, he1, he2, List.append_nil,
      List.cons_append, List.nil_append]
    norm_num [List.insertionSort, List.orderedInsert, leT]

/-! ## Line enrichment pipeline (`is_cjk`, `to_pinyin`, `batch_translate`,
`enrich_with_pinyin_and_trans`, src/main.py lines 111–191).  The OpenCC
conversion, the pypinyin backend and the optional Argos translator are
black-box parameters; a per-string translator result of `none` models a
call that raised (degraded to ""). -/

/-- The `ADD_TRANSLATION` configuration constant (src/main.py line 35). -/
def ADD_TRANSLATION : Bool := true

/-- `is_cjk` (lines 111–112): some character lies in U+4E00–U+9FFF. -/
def is_cjk (s : String) : Bool :=
  s.data.any fun ch => '一' ≤ ch ∧ ch ≤ '鿿'

/-- `to_pinyin` (lines 117–123): "" for empty or non-CJK lines; otherwise
the pinyin tokens of the simplified text, blank tokens dropped, joined by
single spaces. -/
def to_pinyin (cv : String → String) (py : String → List String) (line : String) : String :=
  if line = "" ∨ ¬ is_cjk line then ""
  else String.intercalate " " ((py (cv line)).filter fun tok => pyStrip tok ≠ "")

/-- Insertion-order deduplication as Python's `dict.fromkeys` (line 141):
keep the first occurrence of each string. -/
def dedupKeepFirst (l : List String) : List String :=
  l.foldl (fun acc s => if s ∈ acc then acc else acc ++ [s]) []

/-- `batch_translate` (lines 139–158): deduplicate the input lines, keep
the CJK ones, and translate each once (`translator = none` models the
Argos model being uninstalled: every entry maps to "" and no call is
made).  The second component counts `translate` invocations. -/
def batch_translate (cv : String → String) (translator : Option (String → Option String))
    (lines : List String) : List (String × String) × Nat :=
  let uniq := (dedupKeepFirst lines).filter fun s => is_cjk s
  if uniq = [] then ([], 0)
  else
    match translator with
    | none => (uniq.map fun s => (s, ""), 0)
    | some tr => (uniq.map fun s => (s, (tr (cv s)).getD ""), uniq.length)

/-- `enrich_with_pinyin_and_trans` (lines 178–191): set each line's pinyin,
then look every line's translation up in the deduplicated mapping
(`mapping.get(ln.text, "")`). -/
def enrich_with_pinyin_and_trans (cv : String → String) (py : String → List String)
    (translator : Option (String → Option String)) (lines : List LrcLine) : List LrcLine :=
  let lines1 := lines.map fun ln => { ln with pinyin := to_pinyin cv py ln.text }
  if ADD_TRANSLATION then
    let mapping := (batch_translate cv translator (lines1.map fun ln => ln.text)).1
    lines1.map fun ln => { ln with trans := (mapping.lookup ln.text).getD "" }
  else
    lines1.map fun ln => { ln with trans := "" }

/-- The translation field written by the broadcast step is a function of
the line's text alone. -/
lemma map_trans_getD (M : List (String × String)) :
    ∀ (l : List LrcLine) (k : Nat), k < l.length →
    ((l.map fun ln => { ln with trans := (M.lookup ln.text).getD "" }).getD k defLine).trans
      = (M.lookup ((l.getD k defLine).text)).getD "" := by
  intro l
  induction l with
  | nil => intro k hk; simp at hk
  | cons a l ih =>
    intro k hk
    cases k with
    | zero => simp
    | succ k => simpa using ih k (by simpa using hk)

/-- The pinyin step leaves every line's text unchanged. -/
lemma map_pinyin_text_getD (cv : String → String) (py : String → List String) :
    ∀ (l : List LrcLine) (k : Nat), k < l.length →
    ((l.map fun ln => { ln with pinyin := to_pinyin cv py ln.text }).getD k defLine).text
      = (l.getD k defLine).text := by
  intro l
  induction l with
  | nil => intro k hk; simp at hk
  | cons a l ih =>
    intro k hk
    cases k with
    | zero => simp
    | succ k => simpa using ih k (by simpa using hk)

/-- C8: translation deduplication — `translate` is invoked at most once per
distinct qualifying (CJK) text; lines with equal text always receive the
same translation; on `["你好","你好","再见"]` exactly 2 calls occur and the two
"你好" lines obtain the same translation string. -/
theorem C8_translation_dedup :
    (∀ (cv : String → String) (translator : Option (String → Option String))
        (lines : List String),
      (batch_translate cv translator lines).2
        ≤ ((dedupKeepFirst lines).filter fun s => is_cjk s).length) ∧
    (∀ (cv : String → String) (py : String → List String)
        (translator : Option (String → Option String)) (lines : List LrcLine) (i j : Nat),
      i < lines.length → j < lines.length →
      (lines.getD i defLine).text = (lines.getD j defLine).text →
      ((enrich_with_pinyin_and_trans cv py translator lines).getD i defLine).trans
        = ((enrich_with_pinyin_and_trans cv py translator lines).getD j defLine).trans) ∧
    (batch_translate id (some fun s => some ("EN:" ++ s)) ["你好", "你好", "再见"]).2 = 2 ∧
    ((enrich_with_pinyin_and_trans id (fun _ => []) (some fun s => some ("EN:" ++ s))
        [⟨0, "你好", "", ""⟩, ⟨1, "你好", "", ""⟩, ⟨2, "再见", "", ""⟩]).getD 0 defLine).trans
      = ((enrich_with_pinyin_and_trans id (fun _ => []) (some fun s => some ("EN:" ++ s))
        [⟨0, "你好", "", ""⟩, ⟨1, "你好", "", ""⟩, ⟨2, "再见", "", ""⟩]).getD 1 defLine).trans := by
  refine ⟨?_, ?_, ?_, ?_⟩
  · intro cv translator lines
    unfold batch_translate
    by_cases h : ((dedupKeepFirst lines).filter fun s => is_cjk s) = []
    · simp [h]
    · cases translator with
      | none => simp [h]
      | some tr => simp [h]
  · intro cv py translator lines i j hi hj htext
    unfold enrich_with_pinyin_and_trans
    simp only [ADD_TRANSLATION]
    simp only [if_true]
    rw [map_trans_getD, map_trans_getD, map_pinyin_text_getD, map_pinyin_text_getD, htext]
    · simpa using hj
    · simpa using hi
    · simpa using hj
    · simpa using hi
  · decide
  · decide

/-- Witness for C8's theorem (its second conjunct carries hypotheses) at
the spec's concrete line list. -/
theorem C8_translation_dedup_witness :
    (0 : Nat) < 3 ∧ (1 : Nat) < 3 ∧
    (([⟨0, "你好", "", ""⟩, ⟨1, "你好", "", ""⟩,
        (⟨2, "再见", "", ""⟩ : LrcLine)].getD 0 defLine).text
      = ([⟨0, "你好", "", ""⟩, ⟨1, "你好", "", ""⟩,
        (⟨2, "再见", "", ""⟩ : LrcLine)].getD 1 defLine).text) ∧
    ((enrich_with_pinyin_and_trans id (fun _ => []) (some fun s => some ("EN:" ++ s))
        [⟨0, "你好", "", ""⟩, ⟨1, "你好", "", ""⟩, ⟨2, "再见", "", ""⟩]).getD 0 defLine).trans
      = ((enrich_with_pinyin_and_trans id (fun _ => []) (some fun s => some ("EN:" ++ s))
        [⟨0, "你好", "", ""⟩, ⟨1, "你好", "", ""⟩, ⟨2, "再见", "", ""⟩]).getD 1 defLine).trans :=
  ⟨by decide, by decide, by decide,
    C8_translation_dedup.2.1 id (fun _ => []) (some fun s => some ("EN:" ++ s))
      [⟨0, "你好", "", ""⟩, ⟨1, "你好", "", ""⟩, ⟨2, "再见", "", ""⟩] 0 1
      (by decide) (by decide) (by decide)⟩

/-! ## Title normalisation (`normalize_title`, src/main.py lines 85–90)
and `primary_artist` (lines 92–93).  The three case-insensitive regex
substitutions are embedded as character scanners implementing the same
matching semantics (leftmost, non-overlapping, greedy/lazy with
backtracking) for their patterns, over the ASCII character classes. -/

/-- Case-insensitive literal match (pattern given in lower case); returns
the remaining input on success. -/
def ciMatch : List Char → List Char → Option (List Char)
  | [], cs => some cs
  | _ :: _, [] => none
  | p :: ps, c :: cs => if c.toLower = p then ciMatch ps cs else none

/-- Regex word characters (`\w`, ASCII part). -/
def wordCh (c : Char) : Bool := c.isAlpha ∨ c.isDigit ∨ c = '_'

/-- A word boundary `\b` after a word character: end of input or a
non-word character next. -/
def boundaryOk : List Char → Bool
  | [] => true
  | c :: _ => ¬ wordCh c

/-- `\s*\d{2,4}\b`: skip whitespace (greedy and deterministic — a shorter
run would put a space where a digit is required), then the digit run must
have length 2–4 exactly (a longer run makes every choice of 2–4 digits end
before another digit, failing `\b`) and end at a word boundary. -/
def remTailR (cs : List Char) : Option (List Char) :=
  let r := cs.dropWhile pySpaceCh
  let d := (r.takeWhile Char.isDigit).length
  if 2 ≤ d ∧ d ≤ 4 ∧ boundaryOk (r.drop d) then some (r.drop d) else none

/-- The `remaster(ed)?\s*\d{2,4}` alternative: the greedy optional `(ed)?`
is tried first, backtracking to the bare stem. -/
def remBranchR (cs : List Char) : Option (List Char) :=
  match ciMatch "remaster".data cs with
  | none => none
  | some r1 =>
    match ciMatch "ed".data r1 with
    | some r2 =>
      match remTailR r2 with
      | some r => some r
      | none => remTailR r1
    | none => remTailR r1

/-- A fixed-string alternative followed by `\b`. -/
def fixedBranchR (pat : String) (cs : List Char) : Option (List Char) :=
  match ciMatch pat.data cs with
  | some r => if boundaryOk r then some r else none
  | none => none

/-- The alternation
`remaster(ed)?\s*\d{2,4}|single version|album version|radio edit|clean|explicit`
(first alternative wins; at any one position at most one can match). -/
def dashAlt (cs : List Char) : Option (List Char) :=
  remBranchR cs <|> fixedBranchR "single version" cs <|> fixedBranchR "album version" cs <|>
    fixedBranchR "radio edit" cs <|> fixedBranchR "clean" cs <|> fixedBranchR "explicit" cs

/-- Attempt of the full pattern `\s*-\s*(…)\b.*` at the head of the input;
the greedy `.*` runs to the next `'\n'` (the only character `.` excludes),
so on success the remainder starts at a newline or is empty. -/
def dashMatchAt (cs : List Char) : Option (List Char) :=
  match cs.dropWhile pySpaceCh with
  | '-' :: r2 =>
    match dashAlt (r2.dropWhile pySpaceCh) with
    | some rest => some (rest.dropWhile fun c => c ≠ '\n')
    | none => none
  | _ => none

/-- First substitution of `normalize_title` (line 87): delete every match
of the remaster/version/edit pattern.  Fuel-driven left-to-right scan
(every step consumes at least one character). -/
def applySub1 : Nat → List Char → List Char
  | 0, cs => cs
  | fuel + 1, cs =>
    match cs with
    | [] => []
    | c :: cs' =>
      match dashMatchAt (c :: cs') with
      | some rest => applySub1 fuel rest
      | none => c :: applySub1 fuel cs'

/-- Attempt of `\s*\(feat\..*?\)` at the head of the input: whitespace,
the literal `(feat.`, then the lazy `.*?` runs to the first `')'` not
preceded by a newline. -/
def featMatchAt (cs : List Char) : Option (List Char) :=
  match ciMatch "(feat.".data (cs.dropWhile pySpaceCh) with
  | some r2 =>
    let mid := r2.takeWhile fun c => c ≠ ')' ∧ c ≠ '\n'
    match r2.drop mid.length with
    | ')' :: r3 => some r3
    | _ => none
  | none => none

/-- Second substitution of `normalize_title` (line 88). -/
def applySub2 : Nat → List Char → List Char
  | 0, cs => cs
  | fuel + 1, cs =>
    match cs with
    | [] => []
    | c :: cs' =>
      match featMatchAt (c :: cs') with
      | some rest => applySub2 fuel rest
      | none => c :: applySub2 fuel cs'

/-- First case-insensitive occurrence of the pattern, scanning without
crossing a newline (the lazy `.*?` cannot match `'\n'`); returns the
remainder after the occurrence. -/
def findCiSub (pat : List Char) : Nat → List Char → Option (List Char)
  | 0, _ => none
  | _, [] => none
  | fuel + 1, c :: cs =>
    if c = '\n' then none
    else
      match ciMatch pat (c :: cs) with
      | some r => some r
      | none => findCiSub pat fuel cs

/-- First `']'` without crossing a newline; returns the remainder after
it. -/
def findClose : Nat → List Char → Option (List Char)
  | 0, _ => none
  | _, [] => none
  | fuel + 1, c :: cs =>
    if c = ']' then some cs
    else if c = '\n' then none
    else findClose fuel cs

/-- Attempt of `\s*\[.*?version.*?\]` at the head of the input.  Taking
the first `version` occurrence suffices: a closing bracket reachable from
a later occurrence (within the same newline-free segment) is also
reachable from the first. -/
def versionMatchAt (cs : List Char) : Option (List Char) :=
  match cs.dropWhile pySpaceCh with
  | '[' :: r2 =>
    match findCiSub "version".data (r2.length + 1) r2 with
    | some r3 => findClose (r3.length + 1) r3
    | none => none
  | _ => none

/-- Third substitution of `normalize_title` (line 89). -/
def applySub3 : Nat → List Char → List Char
  | 0, cs => cs
  | fuel + 1, cs =>
    match cs with
    | [] => []
    | c :: cs' =>
      match versionMatchAt (c :: cs') with
      | some rest => applySub3 fuel rest
      | none => c :: applySub3 fuel cs'

/-- `normalize_title` (src/main.py lines 85–90): the three substitutions in
order, then `strip()`. -/
def normalize_title (title : String) : String :=
  let t1 := applySub1 (title.data.length + 1) title.data
  let t2 := applySub2 (t1.length + 1) t1
  let t3 := applySub3 (t2.length + 1) t2
  pyStrip (String.mk t3)

/-- `primary_artist` (src/main.py lines 92–93): the text before the first
comma, stripped. -/
def primary_artist (artists_csv : String) : String :=
  pyStrip (String.mk (artists_csv.data.takeWhile fun c => c ≠ ','))

/-! ## Lyrics lookup (`fetch_lrclib`, src/main.py lines 95–109) and the
three-attempt fallback chain of `refresh_state` (lines 225–231). -/

/-- A parsed lrclib record: the `plainLyrics` / `syncedLyrics` fields
(`none` = key absent or null). -/
structure LrcData where
  plainLyrics : Option String
  syncedLyrics : Option String
deriving DecidableEq, Repr

/-- Response of a `/get` request: HTTP status and parsed body (`none`
models a falsy JSON payload, which the callers' truthiness checks treat
like an absent result). -/
structure LrcResponse where
  status : Nat
  body : Option LrcData
deriving DecidableEq, Repr

/-- Response of a `/search` request: HTTP status and the ranked candidate
record ids. -/
structure SearchResponse where
  status : Nat
  results : List Nat
deriving DecidableEq, Repr

/-- The HTTP surface used by `fetch_lrclib`: `/get` by artist+title (and
optional duration parameter), `/get` by record id, and `/search`.
`Except.error` models the `requests` call raising (network failure,
timeout). -/
structure Http where
  get : String → String → Option Nat → Except String LrcResponse
  getById : Nat → Except String LrcResponse
  search : String → String → Except String SearchResponse

/-- The duration query parameter actually sent: `if duration_sec:` omits
it when absent or 0 (Python falsiness). -/
def durParam (d : Option Nat) : Option Nat :=
  match d with
  | some n => if n = 0 then none else some n
  | none => none

/-- `fetch_lrclib` (src/main.py lines 95–109): `/get`; on 404, `/search`
and re-fetch the top candidate by id; any non-200 response yields `None`;
exceptions from the HTTP layer are not caught and propagate. -/
def fetch_lrclib (http : Http) (artist title : String) (duration_sec : Option Nat) :
    Except String (Option LrcData) := do
  let r0 ← http.get artist title (durParam duration_sec)
  if r0.status = 404 then
    let s ← http.search title artist
    if s.status ≠ 200 ∨ s.results = [] then
      pure none
    else
      let r1 ← http.getById (s.results.headD 0)
      if r1.status ≠ 200 then pure none else pure r1.body
  else
    if r0.status ≠ 200 then pure none else pure r0.body

/-- The `or`-chain of the three fetch attempts in `refresh_state`
(src/main.py lines 229–231), at the HTTP level: `artist_q`/`title_q` are
the already-normalised arguments and `artists_full` the full comma-joined
artist string. -/
def chainFetch (http : Http) (artist_q artists_full title_q : String) (dur_sec : Nat) :
    Except String (Option LrcData) := do
  match ← fetch_lrclib http artist_q title_q (some dur_sec) with
  | some d => pure (some d)
  | none =>
    match ← fetch_lrclib http artist_q title_q none with
    | some d => pure (some d)
    | none => fetch_lrclib http artists_full title_q (some dur_sec)

/-- The same three-attempt chain with the Lyrics Source abstracted at
attempt granularity (`src artist title durationSec`), as the spec's
testable property stubs it; the second component counts the attempts
performed (Python's `or` short-circuits at the first truthy result). -/
def resolveLyrics (src : String → String → Option Nat → Option LrcData)
    (artists_csv title : String) (dur_sec : Nat) : Option LrcData × Nat :=
  let title_q := normalize_title title
  let artist_q := primary_artist artists_csv
  match src artist_q title_q (some dur_sec) with
  | some d => (some d, 1)
  | none =>
    match src artist_q title_q none with
    | some d => (some d, 2)
    | none => (src artists_csv title_q (some dur_sec), 3)

/-- C5: the fallback chain queries (1) normalised title + primary artist +
duration, (2) the same without duration, (3) full artist string +
normalised title + duration, stopping at the first non-empty result: when
attempt 1 yields nothing and attempt 2 yields a result, that result is
returned after exactly 2 attempts — attempt 3 is never performed. -/
theorem C5_fallback_order (src : String → String → Option Nat → Option LrcData)
    (artists_csv title : String) (dur_sec : Nat) (d : LrcData)
    (h1 : src (primary_artist artists_csv) (normalize_title title) (some dur_sec) = none)
    (h2 : src (primary_artist artists_csv) (normalize_title title) none = some d) :
    resolveLyrics src artists_csv title dur_sec = (some d, 2) := by
  unfold resolveLyrics
  simp only [h1, h2]

/-- Witness for C5 with a concrete stubbed source (found only without the
duration parameter). -/
theorem C5_fallback_order_witness :
    ((fun (_ _ : String) (dOpt : Option Nat) =>
        match dOpt with
        | some _ => (none : Option LrcData)
        | none => some ⟨some "P", some "S"⟩)
      (primary_artist "A, B") (normalize_title "Song") (some 180) = none) ∧
    ((fun (_ _ : String) (dOpt : Option Nat) =>
        match dOpt with
        | some _ => (none : Option LrcData)
        | none => some ⟨some "P", some "S"⟩)
      (primary_artist "A, B") (normalize_title "Song") none = some ⟨some "P", some "S"⟩) ∧
    resolveLyrics
      (fun (_ _ : String) (dOpt : Option Nat) =>
        match dOpt with
        | some _ => (none : Option LrcData)
        | none => some ⟨some "P", some "S"⟩) "A, B" "Song" 180
      = (some ⟨some "P", some "S"⟩, 2) :=
  ⟨rfl, rfl,
    C5_fallback_order _ "A, B" "Song" 180 ⟨some "P", some "S"⟩ rfl rfl⟩

/-- An HTTP layer whose every call raises. -/
def httpFail : Http :=
  ⟨fun _ _ _ => Except.error "network down", fun _ => Except.error "network down",
    fun _ _ => Except.error "network down"⟩

/-- An HTTP layer answering every request with status 500 and no body. -/
def http500 : Http :=
  ⟨fun _ _ _ => Except.ok ⟨500, none⟩, fun _ => Except.ok ⟨500, none⟩,
    fun _ _ => Except.ok ⟨500, []⟩⟩

/-- Binding a successful `Except` computation just applies the
continuation. -/
lemma exceptBindOk {α β : Type} (a : α) (f : α → Except String β) :
    (Except.ok a >>= f) = f a := rfl

/-- C6 counterexample: when the HTTP layer raises (network failure), the
exception propagates out of `fetch_lrclib` — the function has no handler,
so Lyrics Resolution does raise to its caller. -/
theorem C6_cex_network_error_propagates :
    fetch_lrclib httpFail "a" "t" (some 100) = Except.error "network down" := rfl

/-- C6 (amended): the resolution logic itself treats a non-2xx, non-404
response as the attempt yielding no result, and a chain whose three
attempts all yield no result returns an explicit `none`, not an
exception; but a network-level exception raised by the HTTP client is not
caught inside `fetch_lrclib` and propagates to the caller (the poll loop's
own handler catches it there). -/
theorem C6_error_handling :
    (∀ (http : Http) (a t : String) (d : Option Nat) (r0 : LrcResponse),
      http.get a t (durParam d) = Except.ok r0 → r0.status ≠ 200 → r0.status ≠ 404 →
      fetch_lrclib http a t d = Except.ok none) ∧
    (∀ (http : Http) (aq af tq : String) (dur : Nat),
      fetch_lrclib http aq tq (some dur) = Except.ok none →
      fetch_lrclib http aq tq none = Except.ok none →
      fetch_lrclib http af tq (some dur) = Except.ok none →
      chainFetch http aq af tq dur = Except.ok none) := by
  constructor
  · intro http a t d r0 hget h200 h404
    unfold fetch_lrclib
    rw [hget, exceptBindOk]
    simp [h200, h404]
    rfl
  · intro http aq af tq dur h1 h2 h3
    unfold chainFetch
    rw [h1, exceptBindOk]
    simp only []
    rw [h2, exceptBindOk]
    simp only []
    exact h3

/-- Witness for C6's amended theorem: a 500-answering layer yields
`Except.ok none` from a single attempt and from the whole chain. -/
theorem C6_error_handling_witness :
    (http500.get "a" "t" (durParam (some 5)) = Except.ok ⟨500, none⟩ ∧ (500 : Nat) ≠ 200 ∧
      (500 : Nat) ≠ 404 ∧ fetch_lrclib http500 "a" "t" (some 5) = Except.ok none) ∧
    (fetch_lrclib http500 "a" "t" (some 5) = Except.ok none ∧
      fetch_lrclib http500 "a" "t" none = Except.ok none ∧
      fetch_lrclib http500 "aa" "t" (some 5) = Except.ok none ∧
      chainFetch http500 "a" "aa" "t" 5 = Except.ok none) :=
  ⟨⟨rfl, by decide, by decide,
      C6_error_handling.1 http500 "a" "t" (some 5) ⟨500, none⟩ rfl (by decide) (by decide)⟩,
   ⟨rfl, rfl, rfl,
      C6_error_handling.2 http500 "a" "aa" "t" 5 rfl rfl rfl⟩⟩

/-! ## State refresh orchestrator (`refresh_state`, src/main.py lines
194–257) and the poll loop (`poller`, lines 259–265). -/

/-- Playback-source outcome of one tick: an exception from
`ensure_sp`/`sp.current_playback`; a falsy playback object or one whose
`currently_playing_type` is not `"track"`; a playback object without an
item; or a track item with its fields (a local track's id can be null,
hence `Option String`). -/
inductive PlaybackResult where
  | err (msg : String)
  | notTrack
  | noItem
  | track (id : Option String) (name : String) (artistNames : List String)
      (durationMs : Nat) (progressMs : Nat) (isPlaying : Bool)

/-- Everything one tick consumes from the outside world: the playback
result and the black-box collaborators (lrclib HTTP layer, Argos
translator, OpenCC conversion, pypinyin). -/
structure TickInput where
  pb : PlaybackResult
  http : Http
  translator : Option (String → Option String)
  cv : String → String
  py : String → List String

/-- The global `TrackState` dataclass (src/main.py lines 47–59). -/
structure PyState where
  track_id : Option String
  title : String
  artists : String
  duration_ms : Nat
  progress_ms : Nat
  is_playing : Bool
  lrc_lines : List LrcLine
  plain_lyrics : String
  last_error : String

/-- `state = TrackState(lrc_lines=[])` (line 59, with the dataclass
defaults). -/
def initState : PyState := ⟨none, "", "", 0, 0, false, [], "", ""⟩

/-- The plain-lyrics fallback of `refresh_state` (lines 240–242): one
`LrcLine` per non-empty plain-text physical line, the `enumerate` index
serving as its time. -/
def synthLines (plain : String) : List LrcLine :=
  (pySplitlines plain).enum.filterMap fun p =>
    if pyStrip p.2 = "" then none else some ⟨(p.1 : ℚ), pyStrip p.2, "", ""⟩

/-- Result of one `refresh_state` call: the state after the call (partial
updates included when an exception escapes), the escaped exception if any,
and the number of invocations of the lyrics-resolution chain. -/
structure RefreshOut where
  state : PyState
  exc : Option String
  resolveCalls : Nat

/-- The Argos advisory appended when translation produced nothing for a
CJK lyric set (lines 247–250). -/
def argosAdvisory : String :=
  " | Argos zh→en model not installed. See code comment for install snippet."

/-- `refresh_state` (src/main.py lines 194–257).  The playback error branch
records the error and returns; a missing/non-track playback only clears
`is_playing`; a present track always refreshes the metadata fields and, on
an id change, runs the three-attempt fetch chain, parses `syncedLyrics`
(or synthesises lines from the plain lyrics), enriches, publishes, and
possibly appends the Argos advisory; a fetch failure publishes the empty
set.  An exception escaping the chain leaves the partially updated state
(the metadata was already written) and is reported in `exc`. -/
def refresh_state (st : PyState) (inp : TickInput) : RefreshOut :=
  match inp.pb with
  | .err e => ⟨{ st with last_error := "spotify error: " ++ e }, none, 0⟩
  | .notTrack => ⟨{ st with is_playing := false }, none, 0⟩
  | .noItem => ⟨{ st with is_playing := false }, none, 0⟩
  | .track tid name artistNames dur prog playing =>
    let changed := tid ≠ st.track_id
    let st1 := { st with
      track_id := tid
      title := name
      artists := String.intercalate ", " artistNames
      duration_ms := dur
      progress_ms := prog
      is_playing := playing
      last_error := "" }
    if changed then
      let title_q := normalize_title st1.title
      let artist_q := primary_artist st1.artists
      let dur_sec := st1.duration_ms / 1000
      match chainFetch inp.http artist_q st1.artists title_q dur_sec with
      | .error e => ⟨st1, some e, 1⟩
      | .ok none => ⟨{ st1 with plain_lyrics := "", lrc_lines := [] }, none, 1⟩
      | .ok (some data) =>
        let st2 := { st1 with plain_lyrics := data.plainLyrics.getD "" }
        let synced := data.syncedLyrics.getD ""
        let parsed :=
          if pyStrip synced ≠ "" then parse_lrc synced else synthLines st2.plain_lyrics
        let enriched := enrich_with_pinyin_and_trans inp.cv inp.py inp.translator parsed
        let st3 := { st2 with lrc_lines := enriched }
        let st4 :=
          if (st3.lrc_lines.all fun l => l.trans = "") ∧
              (st3.lrc_lines.any fun l => is_cjk l.text) then
            { st3 with last_error := st3.last_error ++ argosAdvisory }
          else st3
        ⟨st4, none, 1⟩
    else ⟨st1, none, 0⟩

/-- One iteration of `poller` (src/main.py lines 259–265): run
`refresh_state`; an escaped exception is caught and recorded as
`"poller error: …"`. -/
def pollStep (st : PyState) (inp : TickInput) : PyState :=
  let o := refresh_state st inp
  match o.exc with
  | none => o.state
  | some e => { o.state with last_error := "poller error: " ++ e }

/-- A tick that reports a track always leaves that track's id in the
state, whatever the fetch chain does. -/
lemma refresh_track_id (st : PyState) (inp : TickInput) (tid : Option String)
    (name : String) (a : List String) (d p : Nat) (b : Bool)
    (h : inp.pb = PlaybackResult.track tid name a d p b) :
    (refresh_state st inp).state.track_id = tid := by
  unfold refresh_state
  rw [h]
  simp only []
  split
  · split
    · simp
    · simp
    · split <;> split <;> rfl
  · simp

/-- C3: on two consecutive ticks reporting the same track id, the second
tick never invokes Lyrics Resolution; a tick whose reported id differs
from the previously observed one invokes it exactly once. -/
theorem C3_track_change_detection :
    (∀ (st : PyState) (inp1 inp2 : TickInput) (tid : Option String)
        (n1 : String) (a1 : List String) (d1 p1 : Nat) (b1 : Bool)
        (n2 : String) (a2 : List String) (d2 p2 : Nat) (b2 : Bool),
      inp1.pb = PlaybackResult.track tid n1 a1 d1 p1 b1 →
      inp2.pb = PlaybackResult.track tid n2 a2 d2 p2 b2 →
      (refresh_state (refresh_state st inp1).state inp2).resolveCalls = 0) ∧
    (∀ (st : PyState) (inp : TickInput) (tid : Option String) (n : String)
        (a : List String) (d p : Nat) (b : Bool),
      inp.pb = PlaybackResult.track tid n a d p b →
      tid ≠ st.track_id →
      (refresh_state st inp).resolveCalls = 1) := by
  constructor
  · intro st inp1 inp2 tid n1 a1 d1 p1 b1 n2 a2 d2 p2 b2 h1 h2
    have hid := refresh_track_id st inp1 tid n1 a1 d1 p1 b1 h1
    obtain ⟨st1, hst1⟩ : ∃ s, (refresh_state st inp1).state = s := ⟨_, rfl⟩
    rw [hst1] at hid ⊢
    unfold refresh_state
    rw [h2]
    simp [hid]
  · intro st inp tid n a d p b h hne
    unfold refresh_state
    rw [h]
    simp only [if_pos hne]
    split
    · rfl
    · rfl
    · rfl

/-- Witness for C3 at a concrete pair of ticks (track id "x"; the HTTP
layer raises, which leaves the id recorded all the same). -/
theorem C3_track_change_detection_witness :
    ((TickInput.mk (PlaybackResult.track (some "x") "T" ["A"] 1000 0 true)
        httpFail none id (fun _ => [])).pb
      = PlaybackResult.track (some "x") "T" ["A"] 1000 0 true) ∧
    ((refresh_state
        (refresh_state initState
          (TickInput.mk (PlaybackResult.track (some "x") "T" ["A"] 1000 0 true)
            httpFail none id (fun _ => []))).state
        (TickInput.mk (PlaybackResult.track (some "x") "T" ["A"] 1000 0 true)
          httpFail none id (fun _ => []))).resolveCalls = 0) ∧
    (some "x" ≠ initState.track_id) ∧
    ((refresh_state initState
        (TickInput.mk (PlaybackResult.track (some "x") "T" ["A"] 1000 0 true)
          httpFail none id (fun _ => []))).resolveCalls = 1) :=
  ⟨rfl,
   C3_track_change_detection.1 initState
     (TickInput.mk (PlaybackResult.track (some "x") "T" ["A"] 1000 0 true)
       httpFail none id (fun _ => []))
     (TickInput.mk (PlaybackResult.track (some "x") "T" ["A"] 1000 0 true)
       httpFail none id (fun _ => []))
     (some "x") "T" ["A"] 1000 0 true "T" ["A"] 1000 0 true rfl rfl,
   by simp [initState],
   C3_track_change_detection.2 initState
     (TickInput.mk (PlaybackResult.track (some "x") "T" ["A"] 1000 0 true)
       httpFail none id (fun _ => []))
     (some "x") "T" ["A"] 1000 0 true rfl (by simp [initState])⟩

/-- The source parser's output is sorted non-decreasingly by time. -/
lemma parse_lrc_sorted (text : String) : List.Pairwise leT (parse_lrc text) := by
  unfold parse_lrc
  by_cases h : text = ""
  · simp [h]
  · simp only [if_neg h]
    exact List.sorted_insertionSort leT _

/-- The indices of `enumFrom` are strictly increasing. -/
lemma pairwise_enumFrom_fst_lt {α : Type} (l : List α) :
    ∀ n, List.Pairwise (fun a b : Nat × α => a.1 < b.1) (l.enumFrom n) := by
  induction l with
  | nil => intro n; simp
  | cons x xs ih =>
    intro n
    simp only [List.enumFrom]
    refine List.Pairwise.cons ?_ (ih (n + 1))
    intro c hc
    obtain ⟨i, y⟩ := c
    have := (List.mem_enumFrom hc).1
    simpa using this

/-- `filterMap` transports pairwiseness along the produced values. -/
lemma pairwise_filterMap_of {α β : Type} {R : α → α → Prop} {S : β → β → Prop}
    (f : α → Option β)
    (H : ∀ a b, R a b → ∀ x, f a = some x → ∀ y, f b = some y → S x y) :
    ∀ {l : List α}, List.Pairwise R l → List.Pairwise S (l.filterMap f) := by
  intro l h
  induction h with
  | nil => simp
  | @cons a l ha _hl ih =>
    rw [List.filterMap_cons]
    cases hfa : f a with
    | none => exact ih
    | some x =>
      refine List.Pairwise.cons ?_ ih
      intro y hy
      obtain ⟨c, hcl, hfc⟩ := List.mem_filterMap.mp hy
      exact H a c (ha c hcl) x hfa y hfc

/-- The synthesised plain-lyrics lines are sorted (their times are the
strictly increasing `enumerate` indices). -/
lemma synthLines_sorted (plain : String) : List.Pairwise leT (synthLines plain) := by
  unfold synthLines
  refine pairwise_filterMap_of _ ?_
    (by simpa [List.enum] using pairwise_enumFrom_fst_lt (pySplitlines plain) 0)
  intro a c hac x hx y hy
  by_cases ha : pyStrip a.2 = ""
  · simp [ha] at hx
  · by_cases hc : pyStrip c.2 = ""
    · simp [hc] at hy
    · simp only [if_neg ha, Option.some.injEq] at hx
      simp only [if_neg hc, Option.some.injEq] at hy
      subst hx
      subst hy
      show ((a.1 : ℚ)) ≤ ((c.1 : ℚ))
      exact_mod_cast le_of_lt hac

/-- Enrichment preserves the times, hence sortedness. -/
lemma enrich_sorted (cv : String → String) (py : String → List String)
    (translator : Option (String → Option String)) {l : List LrcLine}
    (h : List.Pairwise leT l) :
    List.Pairwise leT (enrich_with_pinyin_and_trans cv py translator l) := by
  unfold enrich_with_pinyin_and_trans
  simp only [ADD_TRANSLATION]
  simp only [if_true]
  refine List.Pairwise.map (S := leT) _ ?_ (List.Pairwise.map (S := leT) _ ?_ h)
  · intro a c hac; exact hac
  · intro a c hac; exact hac

/-- Every `refresh_state` step preserves sortedness of the published
lyric set. -/
lemma refresh_state_sorted (st : PyState) (inp : TickInput)
    (h : List.Pairwise leT st.lrc_lines) :
    List.Pairwise leT (refresh_state st inp).state.lrc_lines := by
  unfold refresh_state
  cases inp.pb with
  | err e => simpa using h
  | notTrack => simpa using h
  | noItem => simpa using h
  | track tid name a d p b =>
    simp only []
    split
    · split
      · simpa using h
      · simp
      · split
        · split
          · exact enrich_sorted _ _ _ (parse_lrc_sorted _)
          · exact enrich_sorted _ _ _ (parse_lrc_sorted _)
        · split
          · exact enrich_sorted _ _ _ (synthLines_sorted _)
          · exact enrich_sorted _ _ _ (synthLines_sorted _)
    · simpa using h

/-- C9: in every state reachable by the poll loop from the initial state,
the published lyric set — parsed, synthesised, or emptied on lookup
failure — is sorted non-decreasingly by `timeSeconds`. -/
theorem C9_published_sets_sorted (inputs : List TickInput) :
    List.Pairwise leT ((inputs.foldl pollStep initState).lrc_lines) := by
  have key : ∀ (l : List TickInput) (st : PyState), List.Pairwise leT st.lrc_lines →
      List.Pairwise leT ((l.foldl pollStep st).lrc_lines) := by
    intro l
    induction l with
    | nil => intro st h; simpa using h
    | cons inp rest ih =>
      intro st h
      rw [List.foldl_cons]
      apply ih
      unfold pollStep
      cases hexc : (refresh_state st inp).exc with
      | none => simpa [hexc] using refresh_state_sorted st inp h
      | some e => simpa [hexc] using refresh_state_sorted st inp h
  exact key inputs initState (by simp [initState])

end LyricsApp
